import Mathlib

/-!
Verification development for the geopol multi-agent research system.

The source has three variants of the agent-call logic:
- `src/server.js`: MCP tool registry (`initializeMCP`, `callMCPTool`) and the
  multi-turn tool-use agent loop (`callClaudeAgent`);
- `src/api/agent.js`: serverless variant, single model call, no tools;
- `src/unnamed/part_000`: serverless variant with Brave-search enrichment for
  the researcher agent, single model call, no tools.

Pure data and control flow are embedded shallowly; external collaborators
(the Anthropic model endpoint, MCP provider transports, the Brave search
endpoint, the process environment) are passed in as explicit stub values, so
every definition is executable.
-/

namespace Geopol

/-- An entry of the global `mcpTools` list built by `initializeMCP` in
`src/server.js` (lines 99-107): the namespaced tool name
`serverName ++ "__" ++ originalName`, the advertised description and input
schema (kept opaque as strings), and the bookkeeping fields `_serverName`
and `_originalName`. -/
structure MCPToolEntry where
  name : String
  description : String
  input_schema : String
  serverName : String
  originalName : String
  deriving DecidableEq

/-- A tool as advertised by one provider's `listTools()` response
(`src/server.js` line 98): local name, description, input schema. -/
structure ProviderTool where
  name : String
  description : String
  inputSchema : String
  deriving DecidableEq

/-- One content item of an MCP tool-call response (`result.content` in
`src/server.js` lines 183-189): a `type` tag and, for text items, the text.
Non-text items carry whatever is in their `text` field uninspected. -/
structure MCPItem where
  type : String
  text : String
  deriving DecidableEq

/-- An MCP tool-call response. `content` is optional because
`src/server.js` line 183 guards with `if (result.content)`. -/
structure MCPResult where
  content : Option (List MCPItem)
  deriving DecidableEq

/-- Stub of one connected MCP client's `callTool` behaviour
(`src/server.js` lines 130-133): maps the tool's original name and its
(opaque, stringly-kept) arguments to a result, or to a thrown error message. -/
def MCPClient : Type := String → String → Except String MCPResult

instance {ε α : Type} [DecidableEq ε] [DecidableEq α] : DecidableEq (Except ε α)
  | Except.ok a, Except.ok b =>
    if h : a = b then Decidable.isTrue (congrArg Except.ok h)
    else Decidable.isFalse (fun he => h (Except.ok.inj he))
  | Except.ok _, Except.error _ => Decidable.isFalse (fun he => Except.noConfusion he)
  | Except.error _, Except.ok _ => Decidable.isFalse (fun he => Except.noConfusion he)
  | Except.error a, Except.error b =>
    if h : a = b then Decidable.isTrue (congrArg Except.error h)
    else Decidable.isFalse (fun he => h (Except.error.inj he))

/-- Stub of one provider from the `mcpServers` configuration, as seen by
`initializeMCP`: whether `client.connect` succeeds, and the outcome of
`client.listTools()` (`src/server.js` lines 94-98). -/
structure ProviderStub where
  connectOk : Bool
  listResult : Except String (List ProviderTool)
  deriving DecidableEq

/-- The tool entry pushed onto `mcpTools` for one discovered tool
(`src/server.js` lines 100-106). -/
def mkEntry (serverName : String) (t : ProviderTool) : MCPToolEntry :=
  ⟨serverName ++ "__" ++ t.name, t.description, t.inputSchema, serverName, t.name⟩

/-- All entries contributed by one successfully listed provider, in
discovery order (`src/server.js` lines 99-107). -/
def providerEntries (serverName : String) (ts : List ProviderTool) : List MCPToolEntry :=
  ts.map (mkEntry serverName)

/-- Model of `initializeMCP` from `src/server.js` (lines 56-116): iterate over the
configured servers in order; a provider whose `connect` throws is skipped
entirely (the `catch` at line 110 only logs); if `connect` succeeds the
client is stored in `mcpClients` before `listTools()` is called, so a
`listTools` failure leaves the client registered but contributes no tools.
Returns the registered client names and the accumulated `mcpTools` list.
The body never throws: every failure is absorbed by the per-provider
`try`/`catch`. -/
def initializeMCP : List (String × ProviderStub) → List String × List MCPToolEntry
  | [] => ([], [])
  | (serverName, stub) :: rest =>
    let out := initializeMCP rest
    if stub.connectOk then
      match stub.listResult with
      | Except.ok ts => (serverName :: out.1, providerEntries serverName ts ++ out.2)
      | Except.error _ => (serverName :: out.1, out.2)
    else out

/-- Model of `callMCPTool` from `src/server.js` (lines 119-136): look the qualified
name up in `mcpTools`, throw `"Tool not found: ..."` if absent; look the
owning client up in `mcpClients`, throw `"MCP client not found: ..."` if
absent; otherwise forward to the client's `callTool`. -/
def callMCPTool (mcpTools : List MCPToolEntry) (mcpClients : String → Option MCPClient)
    (toolName : String) (args : String) : Except String MCPResult :=
  match mcpTools.find? (fun t => t.name = toolName) with
  | none => Except.error ("Tool not found: " ++ toolName)
  | some tool =>
    match mcpClients tool.serverName with
    | none => Except.error ("MCP client not found: " ++ tool.serverName)
    | some client => client tool.originalName args

/-- The Anthropic-format tool descriptor produced by `getAnthropicTools`
(`src/server.js` lines 139-145). -/
structure AnthropicTool where
  name : String
  description : String
  input_schema : String
  deriving DecidableEq

/-- Model of `getAnthropicTools` from `src/server.js` (lines 139-145). -/
def getAnthropicTools (mcpTools : List MCPToolEntry) : List AnthropicTool :=
  mcpTools.map (fun t => ⟨t.name, t.description, t.input_schema⟩)

/-! ## Provider launch configuration resolution (`src/server.js` lines 69-92) -/

/-- The `$`-marker substitution applied to each `args` element
(`src/server.js` lines 69-75) and to each merged `env` value (lines 81-86):
a value whose first character is the marker names the environment variable
given by the remaining characters (`value.slice(1)`). JS reads
`process.env[envVar] || value`: an environment variable that is undefined,
or defined as the empty string (falsy), leaves the literal value in place. -/
def substValue (procEnv : String → Option String) (v : String) : String :=
  match v.data with
  | c :: rest =>
    if c = '$' then
      match procEnv (String.mk rest) with
      | some w => if w = "" then v else w
      | none => v
    else v
  | [] => v

/-- The merged environment object `{ ...process.env, ...(serverConfig.env || {}) }`
(`src/server.js` line 78), viewed as a key-to-value mapping: a configured
entry overrides the process entry for the same key. -/
def mergedEnv (procEnv cfgEnv : String → Option String) : String → Option String :=
  fun k =>
    match cfgEnv k with
    | some v => some v
    | none => procEnv k

/-- The environment mapping handed to `StdioClientTransport`
(`src/server.js` lines 81-92): the merged environment with the `$`-marker
substitution applied to every value. -/
def transportEnv (procEnv cfgEnv : String → Option String) : String → Option String :=
  fun k => (mergedEnv procEnv cfgEnv k).map (substValue procEnv)

/-- The resolved `args` list handed to `StdioClientTransport`
(`src/server.js` lines 69-75 and 88-92). -/
def transportArgs (procEnv : String → Option String) (args : List String) : List String :=
  args.map (substValue procEnv)

/-! ## JSON serialization of a raw MCP result (`JSON.stringify(result)`) -/

/-- JSON string escaping for one character, as `JSON.stringify` performs it
on the characters occurring in this development (quote, backslash and the
common control characters). -/
def jsonEscapeChar (c : Char) : String :=
  if c = '"' then "\\\""
  else if c = '\\' then "\\\\"
  else if c = '\n' then "\\n"
  else if c = '\t' then "\\t"
  else if c = '\r' then "\\r"
  else String.singleton c

/-- A JSON string literal for `s`. -/
def jsonStr (s : String) : String :=
  "\"" ++ String.join (s.data.map jsonEscapeChar) ++ "\""

/-- Serialization of one MCP content item, field order as constructed. -/
def stringifyMCPItem (i : MCPItem) : String :=
  "\x7b\"type\":" ++ jsonStr i.type ++ ",\"text\":" ++ jsonStr i.text ++ "\x7d"

/-- Serialization `JSON.stringify(result)` of a raw MCP result (`src/server.js` line 194):
an object with a `content` array when present, `\x7b\x7d` when the `content`
field is absent (stringify drops undefined fields). -/
def stringifyMCPResult (r : MCPResult) : String :=
  match r.content with
  | none => "\x7b\x7d"
  | some items =>
    "\x7b\"content\":[" ++ String.intercalate "," (items.map stringifyMCPItem) ++ "]\x7d"

/-- The accumulation step of `src/server.js` lines 184-188: left-to-right,
each `text`-typed item appends its `text`, every other item appends
nothing. -/
def concatTexts : List MCPItem → String
  | [] => ""
  | item :: rest => (if item.type = "text" then item.text else "") ++ concatTexts rest

/-- The `textContent` accumulation of `src/server.js` lines 182-189:
concatenate the `text` field of every `text`-typed item of the result's
content, the empty string when `content` is absent. -/
def mcpTextContent (r : MCPResult) : String :=
  match r.content with
  | none => ""
  | some items => concatTexts items

/-! ## Conversation data model -/

/-- One content block of a model message (`ContentBlock` of the spec):
text, a tool-use request, or a tool result. The tool-use `input` is kept
opaque as a string, as the loop only forwards it. For a successful tool
result the source object carries no `is_error` field, which the API reads
as false. -/
inductive ContentBlock where
  | text (text : String)
  | toolUse (id : String) (name : String) (input : String)
  | toolResult (tool_use_id : String) (content : String) (is_error : Bool)
  deriving DecidableEq

/-- Message content: either a plain string (`content: previousContext`) or a
block array (`content: response.content`). -/
inductive MsgContent where
  | str (s : String)
  | blocks (bs : List ContentBlock)
  deriving DecidableEq

/-- A conversation message: role (`"user"` or `"assistant"`) and content. -/
structure Message where
  role : String
  content : MsgContent
  deriving DecidableEq

/-- One model response: `stop_reason` and content blocks. -/
structure Response where
  stop_reason : String
  content : List ContentBlock
  deriving DecidableEq

/-- The observable parameters of one `anthropic.messages.create` call:
system prompt (absent for an unknown agent type), message history, and the
`tools` parameter (`none` models passing `undefined`, per
`tools.length > 0 ? tools : undefined` in `src/server.js` line 166). -/
structure ModelCall where
  system : Option String
  messages : List Message
  tools : Option (List AnthropicTool)
  deriving DecidableEq

/-- The newline-joined text extraction of the final response
(`src/server.js` lines 219-222 and the identical code in both serverless
variants): keep `text` blocks, take their text, `join('\n')`. `joinSep` is
JS `Array.prototype.join('\n')`. -/
def joinSep : List String → String
  | [] => ""
  | [s] => s
  | s :: r :: rest => s ++ "\n" ++ joinSep (r :: rest)

/-- Text of a `text` block, `none` otherwise. -/
def textOf : ContentBlock → Option String
  | ContentBlock.text t => some t
  | _ => none

/-- The result value `response.content.filter(text).map(text).join('\n')`. -/
def extractText (content : List ContentBlock) : String :=
  joinSep (content.filterMap textOf)

/-! ## The agent loop (`src/server.js` `callClaudeAgent`, lines 147-223) -/

/-- System prompts of `src/server.js` (lines 26-44). -/
def serverAgentPrompts (agentType : String) : Option String :=
  if agentType = "researcher" then
    some ("You are a Research Agent with access to tools. Your job is to search for and gather information about topics.\nWhen given a topic, USE YOUR TOOLS to search for current information.\nAfter gathering information, provide 3-4 key findings with specific details.\nAlways use the available search tools - do not make up information.")
  else if agentType = "analyzer" then
    some ("You are an Analysis Agent. Your job is to analyze research findings and extract key insights.\nWhen given research findings, identify the 3 most important insights.\nFor each insight, explain why it matters and what implications it has.\nFormat your response with bold insight headers and clear explanations.")
  else if agentType = "writer" then
    some ("You are a Writer Agent. Your job is to synthesize analysis into professional reports.\nWhen given an analysis, write a concise 3-4 paragraph report that:\n- Opens with a strong summary statement\n- Presents the key findings in a logical flow\n- Discusses implications and challenges\n- Concludes with forward-looking perspective\nWrite in a professional, clear style suitable for business readers.")
  else none

/-- The fixed assistant acknowledgment inserted after a prior-context user
message (identical in all three variants). -/
def ackText : String := "I understand the context. Please provide your request."

/-- The optional synthetic context exchange (`src/server.js` lines 151-154;
identical in both serverless variants). JS `if (previousContext)` is a
truthiness test, so an empty-string context is skipped like a missing one. -/
def contextMessages (previousContext : Option String) : List Message :=
  match previousContext with
  | some ctx =>
    if ctx = "" then []
    else [⟨"user", MsgContent.str ctx⟩, ⟨"assistant", MsgContent.str ackText⟩]
  | none => []

/-- The per-block dispatch of `src/server.js` lines 176-204: invoke the
tool; on success the result content is the extracted text, or
`JSON.stringify(result)` when that text is empty (JS `textContent || ...`
falls through on the empty string), with no error flag; on any failure the
content is `"Error: " ++ message` with `is_error: true`. -/
def answerToolUse (mcpTools : List MCPToolEntry) (mcpClients : String → Option MCPClient)
    (id toolName input : String) : ContentBlock :=
  match callMCPTool mcpTools mcpClients toolName input with
  | Except.ok result =>
    let textContent := mcpTextContent result
    ContentBlock.toolResult id
      (if textContent = "" then stringifyMCPResult result else textContent) false
  | Except.error msg => ContentBlock.toolResult id ("Error: " ++ msg) true

/-- The `toolResults` array built by the `for` loop of `src/server.js`
lines 174-206: one tool result per `tool_use` block, in block order;
non-`tool_use` blocks contribute nothing. -/
def dispatchToolResults (mcpTools : List MCPToolEntry)
    (mcpClients : String → Option MCPClient) (content : List ContentBlock) :
    List ContentBlock :=
  content.filterMap fun b =>
    match b with
    | ContentBlock.toolUse id toolName input =>
      some (answerToolUse mcpTools mcpClients id toolName input)
    | _ => none

/-- The `while (response.stop_reason === 'tool_use')` loop of
`src/server.js` lines 170-217, with the model stubbed as the list of its
remaining responses. Each iteration appends the assistant turn and a single
user turn holding all tool results, then consumes the next stubbed
response; an exhausted stub models a failing model call (`none` result),
with the attempted call still recorded in the trace. Returns the final
joined text (lines 219-222) and the trace of model calls made after the
first. -/
def agentLoop (mcpTools : List MCPToolEntry) (mcpClients : String → Option MCPClient)
    (systemPrompt : Option String) (toolsParam : Option (List AnthropicTool)) :
    List Response → List Message → Response → Option String × List ModelCall
  | remaining, messages, response =>
    if response.stop_reason = "tool_use" then
      let messages2 := messages ++
        [⟨"assistant", MsgContent.blocks response.content⟩,
         ⟨"user", MsgContent.blocks (dispatchToolResults mcpTools mcpClients response.content)⟩]
      match remaining with
      | [] => (none, [⟨systemPrompt, messages2, toolsParam⟩])
      | r :: rest =>
        let out := agentLoop mcpTools mcpClients systemPrompt toolsParam rest messages2 r
        (out.1, ⟨systemPrompt, messages2, toolsParam⟩ :: out.2)
    else (some (extractText response.content), [])

/-- Model of `callClaudeAgent` from `src/server.js` (lines 147-223): build the seed
messages (optional context exchange, then the user message), give the
registry's tools only to the researcher, make the first model call and run
the tool-use loop. Returns the final result and the full model-call trace. -/
def callClaudeAgent (mcpTools : List MCPToolEntry) (mcpClients : String → Option MCPClient)
    (agentType userMessage : String) (previousContext : Option String)
    (stub : List Response) : Option String × List ModelCall :=
  let systemPrompt := serverAgentPrompts agentType
  let messages := contextMessages previousContext ++ [⟨"user", MsgContent.str userMessage⟩]
  let tools := if agentType = "researcher" then getAnthropicTools mcpTools else []
  let toolsParam := if tools.length > 0 then some tools else none
  match stub with
  | [] => (none, [⟨systemPrompt, messages, toolsParam⟩])
  | r :: rest =>
    let out := agentLoop mcpTools mcpClients systemPrompt toolsParam rest messages r
    (out.1, ⟨systemPrompt, messages, toolsParam⟩ :: out.2)

/-! ## Serverless variant `src/api/agent.js` -/

/-- System prompts of `src/api/agent.js` (lines 9-26); the researcher prompt
differs from the server variant, analyzer and writer are identical. -/
def apiAgentPrompts (agentType : String) : Option String :=
  if agentType = "researcher" then
    some ("You are a Research Agent. Your job is to search for and gather information about topics.\nWhen given a topic, provide 3-4 key findings with specific details based on your knowledge.\nFocus on recent developments and important facts.")
  else if agentType = "analyzer" then
    some ("You are an Analysis Agent. Your job is to analyze research findings and extract key insights.\nWhen given research findings, identify the 3 most important insights.\nFor each insight, explain why it matters and what implications it has.\nFormat your response with bold insight headers and clear explanations.")
  else if agentType = "writer" then
    some ("You are a Writer Agent. Your job is to synthesize analysis into professional reports.\nWhen given an analysis, write a concise 3-4 paragraph report that:\n- Opens with a strong summary statement\n- Presents the key findings in a logical flow\n- Discusses implications and challenges\n- Concludes with forward-looking perspective\nWrite in a professional, clear style suitable for business readers.")
  else none

/-- Model of `callClaudeAgent` from `src/api/agent.js` (lines 28-50): one model call
with no `tools` parameter, result is the joined text of the response. The
single model response is passed in; the function returns the result and the
one call made. -/
def apiCallClaudeAgent (agentType userMessage : String) (previousContext : Option String)
    (response : Response) : String × ModelCall :=
  let systemPrompt := apiAgentPrompts agentType
  let messages := contextMessages previousContext ++ [⟨"user", MsgContent.str userMessage⟩]
  (extractText response.content, ⟨systemPrompt, messages, none⟩)

/-! ## Serverless variant `src/unnamed/part_000` -/

/-- One formatted Brave search result (`src/unnamed/part_000` lines 31-37). -/
structure SearchResult where
  title : String
  description : String
  url : String
  deriving DecidableEq

/-- System prompts of `src/unnamed/part_000` (lines 46-64); again only the
researcher prompt differs from the other variants. -/
def part000AgentPrompts (agentType : String) : Option String :=
  if agentType = "researcher" then
    some ("You are a Research Agent with access to real-time web search results. Your job is to analyze the search results provided and gather key information about topics.\nWhen given search results, synthesize them into 3-4 key findings with specific details.\nAlways cite your sources by mentioning where the information came from.\nFocus on the most recent and relevant information from the search results.")
  else if agentType = "analyzer" then
    some ("You are an Analysis Agent. Your job is to analyze research findings and extract key insights.\nWhen given research findings, identify the 3 most important insights.\nFor each insight, explain why it matters and what implications it has.\nFormat your response with bold insight headers and clear explanations.")
  else if agentType = "writer" then
    some ("You are a Writer Agent. Your job is to synthesize analysis into professional reports.\nWhen given an analysis, write a concise 3-4 paragraph report that:\n- Opens with a strong summary statement\n- Presents the key findings in a logical flow\n- Discusses implications and challenges\n- Concludes with forward-looking perspective\nWrite in a professional, clear style suitable for business readers.")
  else none

/-- The search-context formatting of `src/unnamed/part_000` lines 75-77. -/
def formatSearchContext (results : List SearchResult) : String :=
  String.intercalate "\n\n"
    (results.enum.map (fun p =>
      "[" ++ toString (p.1 + 1) ++ "] " ++ p.2.title ++ "\n" ++ p.2.description ++
        "\nSource: " ++ p.2.url))

/-- The enriched user message of `src/unnamed/part_000` lines 70-81: for the
researcher only, when the Brave search (stubbed as `brave`) yields a
non-empty result list, the message is wrapped with the formatted results. -/
def enrichMessage (brave : String → Option (List SearchResult))
    (agentType userMessage : String) : String :=
  if agentType = "researcher" then
    match brave userMessage with
    | some results =>
      if results.length > 0 then
        "Search query: \"" ++ userMessage ++ "\"\n\nWeb search results:\n" ++
          formatSearchContext results ++
          "\n\nPlease analyze these search results and provide key findings about: " ++
          userMessage
      else userMessage
    | none => userMessage
  else userMessage

/-- Model of `callClaudeAgent` from `src/unnamed/part_000` (lines 66-101): enrich the
researcher's message with search results, then one model call with no
`tools` parameter; result is the joined text of the response. -/
def part000CallClaudeAgent (brave : String → Option (List SearchResult))
    (agentType userMessage : String) (previousContext : Option String)
    (response : Response) : String × ModelCall :=
  let systemPrompt := part000AgentPrompts agentType
  let enrichedMessage := enrichMessage brave agentType userMessage
  let messages := contextMessages previousContext ++ [⟨"user", MsgContent.str enrichedMessage⟩]
  (extractText response.content, ⟨systemPrompt, messages, none⟩)

/-! ## Derived observers used by the statements -/

/-- The ids of the `toolUse` blocks of a content list, in order. -/
def toolUseIds (content : List ContentBlock) : List String :=
  content.filterMap fun b =>
    match b with
    | ContentBlock.toolUse id _ _ => some id
    | _ => none

/-- The `tool_use_id`s of the `toolResult` blocks of a content list, in order. -/
def toolResultIds (content : List ContentBlock) : List String :=
  content.filterMap fun b =>
    match b with
    | ContentBlock.toolResult id _ _ => some id
    | _ => none

/-- Whether a block is a `toolResult`. -/
def isToolResultB : ContentBlock → Bool
  | ContentBlock.toolResult _ _ _ => true
  | _ => false

/-- Separator-ambiguity guard on a provider name's characters: `true` when
the name neither contains two consecutive underscores nor ends with an
underscore, so that splitting a qualified name at its first `"__"`
occurrence is unambiguous. -/
def sepFree : List Char → Bool
  | [] => true
  | [c] => c != '_'
  | c1 :: c2 :: rest => (!(c1 == '_' && c2 == '_')) && sepFree (c2 :: rest)

/-! ## Concrete stub values used by witnesses and counterexamples -/

/-- A process environment where `SECRET` is `abc`. -/
def procEnvAbc : String → Option String :=
  fun k => if k = "SECRET" then some "abc" else none

/-- A process environment where `SECRET` is set but empty. -/
def procEnvEmpty : String → Option String :=
  fun k => if k = "SECRET" then some "" else none

/-- A provider `env` configuration mapping `API_KEY` to the reference
`"$SECRET"`. -/
def cfgEnvApiKey : String → Option String :=
  fun k => if k = "API_KEY" then some "$SECRET" else none

/-- A one-tool registry: provider `srv` exposing local tool `t`. -/
def demoRegistry : List MCPToolEntry := [⟨"srv__t", "d", "s", "srv", "t"⟩]

/-- A tool response whose only content item is text-typed but empty. -/
def emptyTextResult : MCPResult := ⟨some [⟨"text", ""⟩]⟩

/-- A tool response with one non-empty text item. -/
def okTextResult : MCPResult := ⟨some [⟨"text", "out"⟩, ⟨"image", "zz"⟩]⟩

/-- Clients where `srv` answers every call with `emptyTextResult`. -/
def demoClients : String → Option MCPClient :=
  fun n => if n = "srv" then some (fun _ _ => Except.ok emptyTextResult) else none

/-- Clients where `srv` answers every call with `okTextResult`. -/
def okClients : String → Option MCPClient :=
  fun n => if n = "srv" then some (fun _ _ => Except.ok okTextResult) else none

/-- The empty client map. -/
def noClients : String → Option MCPClient := fun _ => none

/-- A model response requesting three tool calls, of which the second names
an unregistered tool. -/
def toolUseResponse : Response :=
  ⟨"tool_use",
   [ContentBlock.toolUse "t1" "srv__t" "x",
    ContentBlock.toolUse "t2" "missing" "y",
    ContentBlock.toolUse "t3" "srv__t" "z"]⟩

/-- A terminal model response mixing text and non-text blocks. -/
def finalResponse : Response :=
  ⟨"end_turn",
   [ContentBlock.text "hello", ContentBlock.toolUse "t9" "n" "i", ContentBlock.text "world"]⟩

/-- A terminal model response with a single text block. -/
def plainResponse : Response := ⟨"end_turn", [ContentBlock.text "hi"]⟩

/-- A response with stop reason `tool_use` but carrying a text block. -/
def toolStopResponse : Response := ⟨"tool_use", [ContentBlock.text "hi"]⟩

/-- Three providers: one whose connection fails, one healthy with one tool,
one whose `listTools` throws. -/
def demoConfigs : List (String × ProviderStub) :=
  [("bad", ⟨false, Except.ok []⟩),
   ("srv", ⟨true, Except.ok [⟨"t", "d", "s"⟩]⟩),
   ("ugly", ⟨true, Except.error "boom"⟩)]

/-- Two providers whose distinct names and distinct local tool names still
produce the same qualified name, because the first provider's tool embeds
the separator and the second provider's name does too. -/
def collisionConfigs : List (String × ProviderStub) :=
  [("a", ⟨true, Except.ok [⟨"b__c", "d1", "s1"⟩]⟩),
   ("a__b", ⟨true, Except.ok [⟨"c", "d2", "s2"⟩]⟩)]

/-! ## Helper lemmas -/

/-- Per-block dispatch always yields a `toolResult` carrying the block's id. -/
theorem answerToolUse_shape (mt : List MCPToolEntry) (cl : String → Option MCPClient)
    (id n i : String) :
    ∃ c e, answerToolUse mt cl id n i = ContentBlock.toolResult id c e := by
  unfold answerToolUse
  cases callMCPTool mt cl n i with
  | ok r => exact ⟨_, _, rfl⟩
  | error m => exact ⟨_, _, rfl⟩

/-- The ids of the dispatched results are exactly the ids of the `toolUse`
blocks, in the same order. -/
theorem toolResultIds_dispatch (mt : List MCPToolEntry) (cl : String → Option MCPClient)
    (content : List ContentBlock) :
    toolResultIds (dispatchToolResults mt cl content) = toolUseIds content := by
  induction content with
  | nil => rfl
  | cons b rest ih =>
    cases b with
    | text t =>
      simpa [dispatchToolResults, toolUseIds, toolResultIds, List.filterMap_cons] using ih
    | toolResult id c e =>
      simpa [dispatchToolResults, toolUseIds, toolResultIds, List.filterMap_cons] using ih
    | toolUse id n i =>
      obtain ⟨c, e, h⟩ := answerToolUse_shape mt cl id n i
      simpa [dispatchToolResults, toolUseIds, toolResultIds, List.filterMap_cons, h] using ih

/-- Every block of the dispatched results is a `toolResult`. -/
theorem dispatch_all_toolResults (mt : List MCPToolEntry) (cl : String → Option MCPClient)
    (content : List ContentBlock) :
    ∀ b ∈ dispatchToolResults mt cl content, isToolResultB b = true := by
  intro b hb
  rw [dispatchToolResults, List.mem_filterMap] at hb
  obtain ⟨a, _, hfa⟩ := hb
  cases a with
  | text t => cases hfa
  | toolResult id c e => cases hfa
  | toolUse id n i =>
    obtain ⟨c, e, h⟩ := answerToolUse_shape mt cl id n i
    have hb2 : b = answerToolUse mt cl id n i := (Option.some.inj hfa).symm
    rw [hb2, h]
    rfl

/-- The `tools` parameter of every model call the loop makes is the fixed
`toolsParam` computed before the first call. -/
theorem agentLoop_tools_fixed (mt : List MCPToolEntry) (cl : String → Option MCPClient)
    (sys : Option String) (tp : Option (List AnthropicTool)) :
    ∀ (remaining : List Response) (msgs : List Message) (resp : Response),
      ∀ c ∈ (agentLoop mt cl sys tp remaining msgs resp).2, c.tools = tp := by
  intro remaining
  induction remaining with
  | nil =>
    intro msgs resp c hc
    rw [agentLoop] at hc
    split at hc
    · simp at hc
      rw [hc]
    · simp at hc
  | cons r rest ih =>
    intro msgs resp c hc
    rw [agentLoop] at hc
    split at hc
    · simp at hc
      cases hc with
      | inl h => rw [h]
      | inr h => exact ih _ r c h
    · simp at hc

/-! ## Claims -/

/-- C1: in every iteration of the agent loop, each `toolUse` block of the
model's latest response is answered by exactly one `toolResult` whose
`tool_use_id` matches that block's id, in the same order (the result list
consists of `toolResult` blocks only and its id sequence equals the
`toolUse` id sequence), and all results are appended in one single user
message placed right after the assistant turn, before the next model call. -/
theorem tool_results_answer_each_tool_use (mt : List MCPToolEntry)
    (cl : String → Option MCPClient) (content : List ContentBlock) :
    toolResultIds (dispatchToolResults mt cl content) = toolUseIds content
    ∧ (∀ b ∈ dispatchToolResults mt cl content, isToolResultB b = true)
    ∧ (∀ (sys : Option String) (tp : Option (List AnthropicTool)) (msgs : List Message)
        (rest : List Response) (resp r : Response), resp.stop_reason = "tool_use" →
        ((agentLoop mt cl sys tp (r :: rest) msgs resp).2.head?.map (fun c => c.messages)) =
          some (msgs ++ [⟨"assistant", MsgContent.blocks resp.content⟩,
            ⟨"user", MsgContent.blocks (dispatchToolResults mt cl resp.content)⟩])) := by
  refine ⟨toolResultIds_dispatch mt cl content, dispatch_all_toolResults mt cl content, ?_⟩
  intro sys tp msgs rest resp r hstop
  rw [agentLoop, if_pos hstop]
  rfl

/-- Witness for C1 at a concrete three-request response (one of the three
tools unregistered). -/
theorem tool_results_answer_each_tool_use_witness :
    toolResultIds (dispatchToolResults demoRegistry demoClients toolUseResponse.content) =
      toolUseIds toolUseResponse.content
    ∧ (∀ b ∈ dispatchToolResults demoRegistry demoClients toolUseResponse.content,
        isToolResultB b = true)
    ∧ ((agentLoop demoRegistry demoClients none none [plainResponse] []
          toolUseResponse).2.head?.map (fun c => c.messages)) =
        some ([] ++ [⟨"assistant", MsgContent.blocks toolUseResponse.content⟩,
          ⟨"user", MsgContent.blocks
            (dispatchToolResults demoRegistry demoClients toolUseResponse.content)⟩]) := by
  have h := tool_results_answer_each_tool_use demoRegistry demoClients toolUseResponse.content
  exact ⟨h.1, h.2.1, h.2.2 none none [] [] toolUseResponse plainResponse rfl⟩

/-- C2: whenever the tool invocation behind a `toolUse` block fails (tool
not found, client missing, or the call throwing), the loop answers that
block with a `toolResult` carrying the block's id, content
`"Error: " ++ message` and the error flag set, and the loop proceeds to the
next model call instead of raising: with the next stubbed response
non-tool-use, the run still completes with that response's text. -/
theorem tool_failure_becomes_error_result (mt : List MCPToolEntry)
    (cl : String → Option MCPClient) (id toolName input msg : String)
    (hfail : callMCPTool mt cl toolName input = Except.error msg) :
    answerToolUse mt cl id toolName input =
      ContentBlock.toolResult id ("Error: " ++ msg) true
    ∧ (∀ content : List ContentBlock, ContentBlock.toolUse id toolName input ∈ content →
        ContentBlock.toolResult id ("Error: " ++ msg) true ∈
          dispatchToolResults mt cl content)
    ∧ (∀ (sys : Option String) (tp : Option (List AnthropicTool)) (msgs : List Message)
        (rest : List Response) (resp r : Response), resp.stop_reason = "tool_use" →
        r.stop_reason ≠ "tool_use" →
        (agentLoop mt cl sys tp (r :: rest) msgs resp).1 = some (extractText r.content)) := by
  have hans : answerToolUse mt cl id toolName input =
      ContentBlock.toolResult id ("Error: " ++ msg) true := by
    unfold answerToolUse
    rw [hfail]
  refine ⟨hans, ?_, ?_⟩
  · intro content hc
    rw [dispatchToolResults, List.mem_filterMap]
    exact ⟨ContentBlock.toolUse id toolName input, hc, by simp only []; rw [hans]⟩
  · intro sys tp msgs rest resp r hstop hnext
    rw [agentLoop, if_pos hstop]
    show (agentLoop mt cl sys tp rest _ r).1 = _
    rw [agentLoop, if_neg hnext]

/-- Witness for C2: the second request of `toolUseResponse` names an
unregistered tool; the loop answers it with an error result and finishes
with the next response's text. -/
theorem tool_failure_becomes_error_result_witness :
    callMCPTool demoRegistry demoClients "missing" "y" =
      Except.error "Tool not found: missing"
    ∧ answerToolUse demoRegistry demoClients "t2" "missing" "y" =
        ContentBlock.toolResult "t2" ("Error: " ++ "Tool not found: missing") true
    ∧ ContentBlock.toolResult "t2" ("Error: " ++ "Tool not found: missing") true ∈
        dispatchToolResults demoRegistry demoClients toolUseResponse.content
    ∧ (agentLoop demoRegistry demoClients none none [plainResponse] []
        toolUseResponse).1 = some (extractText plainResponse.content) := by
  have h := tool_failure_becomes_error_result demoRegistry demoClients
    "t2" "missing" "y" "Tool not found: missing" rfl
  refine ⟨rfl, h.1, h.2.1 toolUseResponse.content (by decide), ?_⟩
  exact h.2.2 none none [] [] toolUseResponse plainResponse rfl (by decide)

/-- C7: for every agent type other than `researcher`, every model call made
during the run passes no tools parameter, whatever the registry holds; the
researcher's calls all receive the registry's tools (the whole converted
registry whenever it is non-empty). -/
theorem non_researcher_empty_toolset (mt : List MCPToolEntry)
    (cl : String → Option MCPClient) (agentType msg : String) (ctx : Option String)
    (stub : List Response) (h : agentType ≠ "researcher") :
    (∀ c ∈ (callClaudeAgent mt cl agentType msg ctx stub).2, c.tools = none)
    ∧ (∀ c ∈ (callClaudeAgent mt cl "researcher" msg ctx stub).2,
        c.tools = if (getAnthropicTools mt).length > 0
          then some (getAnthropicTools mt) else none) := by
  constructor
  · intro c hc
    rw [callClaudeAgent.eq_def] at hc
    simp only [if_neg h, List.length_nil, gt_iff_lt, lt_self_iff_false, if_false] at hc
    cases stub with
    | nil =>
      simp at hc
      rw [hc]
    | cons r rest =>
      simp at hc
      cases hc with
      | inl h2 => rw [h2]
      | inr h2 => exact agentLoop_tools_fixed mt cl _ none rest _ r c h2
  · intro c hc
    rw [callClaudeAgent.eq_def] at hc
    simp only [if_pos rfl] at hc
    cases stub with
    | nil =>
      simp at hc
      rw [hc]
    | cons r rest =>
      simp at hc
      cases hc with
      | inl h2 => rw [h2]
      | inr h2 => exact agentLoop_tools_fixed mt cl _ _ rest _ r c h2

/-- Witness for C7: the analyzer runs with no tools parameter even though
the registry holds a tool; the researcher's calls carry the registry. -/
theorem non_researcher_empty_toolset_witness :
    ("analyzer" : String) ≠ "researcher"
    ∧ (∀ c ∈ (callClaudeAgent demoRegistry demoClients "analyzer" "m" none
        [toolUseResponse, plainResponse]).2, c.tools = none)
    ∧ (∀ c ∈ (callClaudeAgent demoRegistry demoClients "researcher" "m" none
        [toolUseResponse, plainResponse]).2,
        c.tools = if (getAnthropicTools demoRegistry).length > 0
          then some (getAnthropicTools demoRegistry) else none) := by
  have h := non_researcher_empty_toolset demoRegistry demoClients "analyzer" "m" none
    [toolUseResponse, plainResponse] (by decide)
  exact ⟨by decide, h.1, h.2⟩

/-- Rebuilding a string from its character list is the identity. -/
theorem string_mk_data (s : String) : String.mk s.data = s := by
  cases s
  rfl

/-- C4 (amended): a configuration value `"$" ++ name` resolves to the value
of process environment variable `name` when that variable is defined and
non-empty; when the variable is undefined or set to the empty string the
literal (marker included) passes through unchanged; the same substitution
is applied to every configured `env` entry of the transport environment and
to every `args` element. -/
theorem config_substitution (procEnv : String → Option String) (name : String) :
    (∀ v, procEnv name = some v → v ≠ "" → substValue procEnv ("$" ++ name) = v)
    ∧ (procEnv name = none → substValue procEnv ("$" ++ name) = "$" ++ name)
    ∧ (procEnv name = some "" → substValue procEnv ("$" ++ name) = "$" ++ name)
    ∧ (∀ (cfgEnv : String → Option String) (k s : String), cfgEnv k = some s →
        transportEnv procEnv cfgEnv k = some (substValue procEnv s))
    ∧ (∀ (args : List String) (arg : String), arg ∈ args →
        substValue procEnv arg ∈ transportArgs procEnv args) := by
  have hdata : ("$" ++ name).data = '$' :: name.data := by
    simp [String.data_append]
  refine ⟨?_, ?_, ?_, ?_, ?_⟩
  · intro v hv hne
    unfold substValue
    rw [hdata]
    simp [string_mk_data, hv, hne]
  · intro hv
    unfold substValue
    rw [hdata]
    simp [string_mk_data, hv]
  · intro hv
    unfold substValue
    rw [hdata]
    simp [string_mk_data, hv]
  · intro cfgEnv k s hk
    rw [transportEnv, mergedEnv]
    simp only [hk]
    rfl
  · intro args arg harg
    exact List.mem_map_of_mem (substValue procEnv) harg

/-- Witness for C4 at the spec's own example. -/
theorem config_substitution_witness :
    procEnvAbc "SECRET" = some "abc"
    ∧ substValue procEnvAbc ("$" ++ "SECRET") = "abc"
    ∧ procEnvAbc "OTHER" = none
    ∧ substValue procEnvAbc ("$" ++ "OTHER") = "$" ++ "OTHER"
    ∧ transportEnv procEnvAbc cfgEnvApiKey "API_KEY" = some (substValue procEnvAbc "$SECRET") := by
  refine ⟨rfl, ?_, rfl, ?_, ?_⟩
  · exact (config_substitution procEnvAbc "SECRET").1 "abc" rfl (by decide)
  · exact (config_substitution procEnvAbc "OTHER").2.1 rfl
  · exact (config_substitution procEnvAbc "SECRET").2.2.2.1 cfgEnvApiKey "API_KEY" "$SECRET" rfl

/-- Counterexample for C4 as stated: with `SECRET` defined as the empty
string, the code does not substitute the variable's value; the literal
`"$SECRET"` passes through although the variable is not undefined. -/
theorem subst_empty_env_var_literal :
    procEnvEmpty "SECRET" = some ""
    ∧ substValue procEnvEmpty "$SECRET" = "$SECRET"
    ∧ transportEnv procEnvEmpty cfgEnvApiKey "API_KEY" = some "$SECRET"
    ∧ ("$SECRET" : String) ≠ "" := by
  exact ⟨rfl, by decide, by decide, by decide⟩

/-- C9: the environment handed to a provider's transport is the whole
process environment merged with the configured entries — a key the
configuration does not mention keeps its (substituted) process value, a
configured key takes its (substituted) configured value, and every key of
the process environment stays present. -/
theorem transport_env_inherits_process_env (procEnv cfgEnv : String → Option String)
    (k v : String) (h : procEnv k = some v) :
    (cfgEnv k = none → transportEnv procEnv cfgEnv k = some (substValue procEnv v))
    ∧ (∀ u, cfgEnv k = some u → transportEnv procEnv cfgEnv k = some (substValue procEnv u))
    ∧ transportEnv procEnv cfgEnv k ≠ none := by
  refine ⟨?_, ?_, ?_⟩
  · intro hc
    rw [transportEnv, mergedEnv]
    simp only [hc, h]
    rfl
  · intro u hc
    rw [transportEnv, mergedEnv]
    simp only [hc]
    rfl
  · rw [transportEnv, mergedEnv]
    cases hc : cfgEnv k <;> simp [hc, h]

/-- Witness for C9: with `SECRET=abc` in the process environment and a
configuration that only sets `API_KEY`, the transport environment still
carries `SECRET`. -/
theorem transport_env_inherits_process_env_witness :
    procEnvAbc "SECRET" = some "abc"
    ∧ cfgEnvApiKey "SECRET" = none
    ∧ transportEnv procEnvAbc cfgEnvApiKey "SECRET" = some (substValue procEnvAbc "abc")
    ∧ transportEnv procEnvAbc cfgEnvApiKey "SECRET" ≠ none := by
  have h := transport_env_inherits_process_env procEnvAbc cfgEnvApiKey "SECRET" "abc" rfl
  exact ⟨rfl, rfl, h.1 rfl, h.2.2⟩

/-- A newline-join of a list containing a non-empty string is non-empty. -/
theorem joinSep_ne_empty (l : List String) (t : String) (hmem : t ∈ l) (ht : t ≠ "") :
    joinSep l ≠ "" := by
  match l with
  | [] => cases hmem
  | [s] =>
    have hts : t = s := by simpa using hmem
    rw [joinSep, ← hts]
    exact ht
  | s :: r :: rest =>
    intro h
    have h2 : joinSep (s :: r :: rest) = s ++ "\n" ++ joinSep (r :: rest) := rfl
    rw [h2] at h
    have hlen := congrArg String.length h
    simp only [String.length_append] at hlen
    have hn : ("\n" : String).length = 1 := rfl
    have hz : ("" : String).length = 0 := rfl
    omega

/-- A content list containing a non-empty text block extracts to a
non-empty result. -/
theorem extractText_ne_empty (content : List ContentBlock) (t : String)
    (hmem : ContentBlock.text t ∈ content) (ht : t ≠ "") : extractText content ≠ "" := by
  apply joinSep_ne_empty _ t _ ht
  rw [List.mem_filterMap]
  exact ⟨ContentBlock.text t, hmem, rfl⟩

/-- C5: with a model stub answering `tool_use` first and then a terminal
stop reason, the agent run terminates; its result is the newline-join of
the text blocks of the final response (other blocks ignored), and it is
non-empty whenever some text block of that response is non-empty. -/
theorem loop_alternating_terminates (mt : List MCPToolEntry)
    (cl : String → Option MCPClient) (agentType msg : String) (ctx : Option String)
    (r1 r2 : Response) (t : String)
    (h1 : r1.stop_reason = "tool_use") (h2 : r2.stop_reason ≠ "tool_use")
    (hmem : ContentBlock.text t ∈ r2.content) (ht : t ≠ "") :
    (callClaudeAgent mt cl agentType msg ctx [r1, r2]).1 = some (extractText r2.content)
    ∧ extractText r2.content = joinSep (r2.content.filterMap textOf)
    ∧ extractText r2.content ≠ "" := by
  refine ⟨?_, rfl, extractText_ne_empty r2.content t hmem ht⟩
  rw [callClaudeAgent.eq_def]
  show (agentLoop mt cl _ _ [r2] _ r1).1 = _
  rw [agentLoop, if_pos h1]
  show (agentLoop mt cl _ _ [] _ r2).1 = _
  rw [agentLoop, if_neg h2]

/-- Witness for C5 with the concrete alternating stub. -/
theorem loop_alternating_terminates_witness :
    (callClaudeAgent demoRegistry demoClients "researcher" "m" (some "ctx")
      [toolUseResponse, finalResponse]).1 = some (extractText finalResponse.content)
    ∧ extractText finalResponse.content = joinSep (finalResponse.content.filterMap textOf)
    ∧ extractText finalResponse.content ≠ "" := by
  exact loop_alternating_terminates demoRegistry demoClients "researcher" "m" (some "ctx")
    toolUseResponse finalResponse "hello" rfl (by decide) (by decide) (by decide)

/-- A content list without text-typed items concatenates to the empty string. -/
theorem concatTexts_eq_empty (items : List MCPItem) (h : ∀ item ∈ items, item.type ≠ "text") :
    concatTexts items = "" := by
  induction items with
  | nil => rfl
  | cons item rest ih =>
    rw [concatTexts, if_neg (h item (List.mem_cons_self item rest))]
    have := ih (fun i hi => h i (List.mem_cons_of_mem item hi))
    rw [this]
    rfl

/-- C6 (amended): a successful tool invocation yields a `toolResult` with
the error flag clear whose content is the concatenation of the text-typed
segments of the provider's response whenever that concatenation is
non-empty; when the concatenation is empty — in particular when no
text-typed segment exists, or the content field is absent — the content is
the JSON serialization of the raw response instead. -/
theorem tool_success_result_content (mt : List MCPToolEntry)
    (cl : String → Option MCPClient) (id toolName input : String) (r : MCPResult)
    (h : callMCPTool mt cl toolName input = Except.ok r) :
    answerToolUse mt cl id toolName input =
      ContentBlock.toolResult id
        (if mcpTextContent r = "" then stringifyMCPResult r else mcpTextContent r) false
    ∧ (mcpTextContent r ≠ "" →
        answerToolUse mt cl id toolName input =
          ContentBlock.toolResult id (mcpTextContent r) false)
    ∧ (∀ items, r.content = some items → (∀ item ∈ items, item.type ≠ "text") →
        answerToolUse mt cl id toolName input =
          ContentBlock.toolResult id (stringifyMCPResult r) false)
    ∧ (r.content = none →
        answerToolUse mt cl id toolName input =
          ContentBlock.toolResult id (stringifyMCPResult r) false) := by
  have hans : answerToolUse mt cl id toolName input =
      ContentBlock.toolResult id
        (if mcpTextContent r = "" then stringifyMCPResult r else mcpTextContent r) false := by
    unfold answerToolUse
    rw [h]
  refine ⟨hans, ?_, ?_, ?_⟩
  · intro hne
    rw [hans, if_neg hne]
  · intro items hitems hno
    have hempty : mcpTextContent r = "" := by
      rw [mcpTextContent, hitems]
      exact concatTexts_eq_empty items hno
    rw [hans, if_pos hempty]
  · intro hnone
    have hempty : mcpTextContent r = "" := by
      rw [mcpTextContent, hnone]
    rw [hans, if_pos hempty]

/-- Witness for C6 on a successful call returning one non-empty text item
and one image item. -/
theorem tool_success_result_content_witness :
    callMCPTool demoRegistry okClients "srv__t" "x" = Except.ok okTextResult
    ∧ mcpTextContent okTextResult = "out"
    ∧ answerToolUse demoRegistry okClients "t1" "srv__t" "x" =
        ContentBlock.toolResult "t1" (mcpTextContent okTextResult) false := by
  have h := tool_success_result_content demoRegistry okClients "t1" "srv__t" "x"
    okTextResult rfl
  exact ⟨rfl, rfl, h.2.1 (by decide)⟩

/-- Counterexample for C6 as stated: a successful response whose only
segment is text-typed but empty. The claim predicts content equal to the
concatenation of the text segments (the empty string); the code instead
falls through `textContent || JSON.stringify(result)` and stores the JSON
serialization, which is non-empty. -/
theorem success_content_empty_text_serialized :
    callMCPTool demoRegistry demoClients "srv__t" "x" = Except.ok emptyTextResult
    ∧ emptyTextResult.content = some [⟨"text", ""⟩]
    ∧ mcpTextContent emptyTextResult = ""
    ∧ answerToolUse demoRegistry demoClients "t1" "srv__t" "x" =
        ContentBlock.toolResult "t1" (stringifyMCPResult emptyTextResult) false
    ∧ stringifyMCPResult emptyTextResult ≠ mcpTextContent emptyTextResult := by
  exact ⟨rfl, rfl, rfl, by decide, by decide⟩

/-- Every registry entry originates from a provider that connected and
listed its tools successfully. -/
theorem mem_initializeMCP_tools (configs : List (String × ProviderStub)) :
    ∀ e ∈ (initializeMCP configs).2, ∃ p ∈ configs, p.2.connectOk = true ∧
      ∃ ts, p.2.listResult = Except.ok ts ∧ ∃ t ∈ ts, e = mkEntry p.1 t := by
  induction configs with
  | nil => intro e he; cases he
  | cons cfg rest ih =>
    intro e he
    obtain ⟨serverName, stub⟩ := cfg
    rw [initializeMCP] at he
    by_cases hconn : stub.connectOk
    · rw [if_pos hconn] at he
      cases hres : stub.listResult with
      | ok ts =>
        rw [hres] at he
        simp only [] at he
        rcases List.mem_append.mp he with hl | hr
        · obtain ⟨t, ht, hmk⟩ := List.mem_map.mp hl
          exact ⟨(serverName, stub), List.mem_cons_self _ _, hconn, ts, hres, t, ht, hmk.symm⟩
        · obtain ⟨p, hp, hrest⟩ := ih e hr
          exact ⟨p, List.mem_cons_of_mem _ hp, hrest⟩
      | error msg =>
        rw [hres] at he
        obtain ⟨p, hp, hrest⟩ := ih e he
        exact ⟨p, List.mem_cons_of_mem _ hp, hrest⟩
    · rw [if_neg hconn] at he
      obtain ⟨p, hp, hrest⟩ := ih e he
      exact ⟨p, List.mem_cons_of_mem _ hp, hrest⟩

/-- In a list of pairs whose first components are duplicate-free, a first
component determines the second. -/
theorem snd_eq_of_fst_nodup {α β : Type} (l : List (α × β)) (a : α) (b c : β)
    (hnd : (l.map Prod.fst).Nodup) (hb : (a, b) ∈ l) (hc : (a, c) ∈ l) : b = c := by
  induction l with
  | nil => cases hb
  | cons p rest ih =>
    rw [List.map_cons, List.nodup_cons] at hnd
    rcases List.mem_cons.mp hb with hb1 | hb1 <;> rcases List.mem_cons.mp hc with hc1 | hc1
    · exact congrArg Prod.snd (hb1.trans hc1.symm)
    · exfalso
      apply hnd.1
      have hfa : p.1 = a := (congrArg Prod.fst hb1).symm
      rw [hfa]
      exact List.mem_map_of_mem Prod.fst hc1
    · exfalso
      apply hnd.1
      have hfa : p.1 = a := (congrArg Prod.fst hc1).symm
      rw [hfa]
      exact List.mem_map_of_mem Prod.fst hb1
    · exact ih hnd.2 hb1 hc1

/-- The entries of one healthy provider embed into the registry in order. -/
theorem providerEntries_sublist (configs : List (String × ProviderStub))
    (serverName : String) (stub : ProviderStub) (ts : List ProviderTool)
    (hmem : (serverName, stub) ∈ configs) (hconn : stub.connectOk = true)
    (hok : stub.listResult = Except.ok ts) :
    List.Sublist (providerEntries serverName ts) (initializeMCP configs).2 := by
  induction configs with
  | nil => cases hmem
  | cons cfg rest ih =>
    obtain ⟨n, st⟩ := cfg
    rcases List.mem_cons.mp hmem with hhead | htail
    · have hn : serverName = n := congrArg Prod.fst hhead
      have hst : stub = st := congrArg Prod.snd hhead
      rw [initializeMCP]
      subst hn
      rw [← hst, if_pos hconn, hok]
      exact List.sublist_append_left _ _
    · have hsub := ih htail
      rw [initializeMCP]
      by_cases hc : st.connectOk
      · rw [if_pos hc]
        cases hres : st.listResult with
        | ok ts2 => exact hsub.trans (List.sublist_append_right _ _)
        | error m => exact hsub
      · rw [if_neg hc]
        exact hsub

/-- C8: a provider whose connection or tool listing fails contributes no
tools to the registry, while every tool of every healthy provider remains
available; initialization itself is total (the per-provider failures are
absorbed, never raised). -/
theorem init_mcp_failures_skipped (configs : List (String × ProviderStub))
    (serverName : String) (stub : ProviderStub)
    (hmem : (serverName, stub) ∈ configs)
    (hnames : (configs.map Prod.fst).Nodup) :
    (stub.connectOk = false → ∀ e ∈ (initializeMCP configs).2, e.serverName ≠ serverName)
    ∧ (∀ msg, stub.listResult = Except.error msg →
        ∀ e ∈ (initializeMCP configs).2, e.serverName ≠ serverName)
    ∧ (∀ ts, stub.connectOk = true → stub.listResult = Except.ok ts →
        List.Sublist (providerEntries serverName ts) (initializeMCP configs).2) := by
  refine ⟨?_, ?_, ?_⟩
  · intro hconn e he hname
    obtain ⟨p, hp, hok, ts, hts, t, ht, hmk⟩ := mem_initializeMCP_tools configs e he
    have hfst : e.serverName = p.1 := by rw [hmk]; rfl
    have hpe : p = (serverName, p.2) := by
      rw [Prod.ext_iff]
      refine ⟨?_, rfl⟩
      rw [← hfst]
      exact hname
    rw [hpe] at hp
    have hsnd := snd_eq_of_fst_nodup configs serverName stub p.2 hnames hmem hp
    rw [← hsnd] at hok
    rw [hconn] at hok
    cases hok
  · intro msg hmsg e he hname
    obtain ⟨p, hp, hok, ts, hts, t, ht, hmk⟩ := mem_initializeMCP_tools configs e he
    have hfst : e.serverName = p.1 := by rw [hmk]; rfl
    have hpe : p = (serverName, p.2) := by
      rw [Prod.ext_iff]
      refine ⟨?_, rfl⟩
      rw [← hfst]
      exact hname
    rw [hpe] at hp
    have hsnd := snd_eq_of_fst_nodup configs serverName stub p.2 hnames hmem hp
    rw [hsnd] at hmsg
    rw [hts] at hmsg
    cases hmsg
  · intro ts hconn hok
    exact providerEntries_sublist configs serverName stub ts hmem hconn hok

/-- Witness for C8 on `demoConfigs`: the failing providers `bad` and `ugly`
contribute nothing, the healthy provider `srv` keeps its tool. -/
theorem init_mcp_failures_skipped_witness :
    (∀ e ∈ (initializeMCP demoConfigs).2, e.serverName ≠ "bad")
    ∧ (∀ e ∈ (initializeMCP demoConfigs).2, e.serverName ≠ "ugly")
    ∧ List.Sublist (providerEntries "srv" [⟨"t", "d", "s"⟩]) (initializeMCP demoConfigs).2 := by
  have hbad := init_mcp_failures_skipped demoConfigs "bad" ⟨false, Except.ok []⟩
    (by decide) (by decide)
  have hugly := init_mcp_failures_skipped demoConfigs "ugly" ⟨true, Except.error "boom"⟩
    (by decide) (by decide)
  have hsrv := init_mcp_failures_skipped demoConfigs "srv" ⟨true, Except.ok [⟨"t", "d", "s"⟩]⟩
    (by decide) (by decide)
  exact ⟨hbad.1 rfl, hugly.2.1 "boom" rfl, hsrv.2.2 [⟨"t", "d", "s"⟩] rfl rfl⟩

/-- The guard `sepFree` passes to the tail. -/
theorem sepFree_tail (c : Char) (l : List Char) (h : sepFree (c :: l) = true) :
    sepFree l = true := by
  cases l with
  | nil => rfl
  | cons c2 rest =>
    simp only [sepFree, Bool.and_eq_true] at h
    exact h.2

/-- Splitting at the separator is unambiguous for `sepFree` prefixes. -/
theorem sep_inj : ∀ (p1 p2 t1 t2 : List Char), sepFree p1 = true → sepFree p2 = true →
    p1 ++ '_' :: '_' :: t1 = p2 ++ '_' :: '_' :: t2 → p1 = p2 ∧ t1 = t2 := by
  intro p1
  induction p1 with
  | nil =>
    intro p2 t1 t2 h1 h2 e
    cases p2 with
    | nil =>
      simp only [List.nil_append, List.cons.injEq, true_and] at e
      exact ⟨rfl, e⟩
    | cons c p2' =>
      rw [List.nil_append, List.cons_append] at e
      have hc : '_' = c := ((List.cons.injEq _ _ _ _).mp e).1
      have e2 : '_' :: t1 = p2' ++ '_' :: '_' :: t2 := ((List.cons.injEq _ _ _ _).mp e).2
      cases p2' with
      | nil =>
        subst hc
        simp [sepFree] at h2
      | cons c2 p2'' =>
        rw [List.cons_append] at e2
        have hc2 : '_' = c2 := ((List.cons.injEq _ _ _ _).mp e2).1
        subst hc
        subst hc2
        simp [sepFree] at h2
  | cons c p1' ih =>
    intro p2 t1 t2 h1 h2 e
    cases p2 with
    | nil =>
      rw [List.cons_append, List.nil_append] at e
      have hc : c = '_' := ((List.cons.injEq _ _ _ _).mp e).1
      have e2 : p1' ++ '_' :: '_' :: t1 = '_' :: t2 := ((List.cons.injEq _ _ _ _).mp e).2
      cases p1' with
      | nil =>
        subst hc
        simp [sepFree] at h1
      | cons c2 p1'' =>
        rw [List.cons_append] at e2
        have hc2 : c2 = '_' := ((List.cons.injEq _ _ _ _).mp e2).1
        subst hc
        subst hc2
        simp [sepFree] at h1
    | cons d p2' =>
      rw [List.cons_append, List.cons_append] at e
      have hcd : c = d := ((List.cons.injEq _ _ _ _).mp e).1
      have e2 : p1' ++ '_' :: '_' :: t1 = p2' ++ '_' :: '_' :: t2 :=
        ((List.cons.injEq _ _ _ _).mp e).2
      obtain ⟨hp, ht⟩ := ih p2' t1 t2 (sepFree_tail c p1' h1) (sepFree_tail d p2' h2) e2
      subst hcd
      rw [hp]
      exact ⟨rfl, ht⟩

/-- Qualified-name building is injective on `sepFree` provider names. -/
theorem qualified_name_inj (p1 p2 t1 t2 : String)
    (h1 : sepFree p1.data = true) (h2 : sepFree p2.data = true)
    (e : p1 ++ "__" ++ t1 = p2 ++ "__" ++ t2) : p1 = p2 ∧ t1 = t2 := by
  have hsepd : ("__" : String).data = ['_', '_'] := rfl
  have ed : p1.data ++ '_' :: '_' :: t1.data = p2.data ++ '_' :: '_' :: t2.data := by
    have h := congrArg String.data e
    simp only [String.data_append, hsepd, List.append_assoc, List.cons_append,
      List.nil_append] at h
    exact h
  obtain ⟨hp, ht⟩ := sep_inj p1.data p2.data t1.data t2.data h1 h2 ed
  constructor
  · have h := congrArg String.mk hp
    rwa [string_mk_data, string_mk_data] at h
  · have h := congrArg String.mk ht
    rwa [string_mk_data, string_mk_data] at h

/-- C3 (amended): all qualified names of the registry are pairwise
distinct, provided the (pairwise distinct) provider names neither contain
two consecutive underscores nor end in an underscore, and each provider's
listed local tool names are themselves duplicate-free. Without the
separator-ambiguity condition two distinct providers can collide (see the
counterexample). -/
theorem qualified_names_nodup_of_sep_free (configs : List (String × ProviderStub))
    (hnames : (configs.map Prod.fst).Nodup)
    (hsep : ∀ p ∈ configs, sepFree p.1.data = true)
    (htools : ∀ p ∈ configs,
      (((p.2.listResult.toOption.getD []).map ProviderTool.name)).Nodup) :
    ((initializeMCP configs).2.map MCPToolEntry.name).Nodup := by
  induction configs with
  | nil => simp [initializeMCP]
  | cons cfg rest ih =>
    obtain ⟨n, st⟩ := cfg
    rw [List.map_cons, List.nodup_cons] at hnames
    have ihr := ih hnames.2 (fun p hp => hsep p (List.mem_cons_of_mem _ hp))
      (fun p hp => htools p (List.mem_cons_of_mem _ hp))
    rw [initializeMCP]
    by_cases hconn : st.connectOk
    · rw [if_pos hconn]
      cases hres : st.listResult with
      | error m => exact ihr
      | ok ts =>
        show ((providerEntries n ts ++ (initializeMCP rest).2).map MCPToolEntry.name).Nodup
        rw [List.map_append, List.nodup_append]
        have hsepn : sepFree n.data = true := hsep (n, st) (List.mem_cons_self _ _)
        refine ⟨?_, ihr, ?_⟩
        · have hts : (ts.map ProviderTool.name).Nodup := by
            have h := htools (n, st) (List.mem_cons_self _ _)
            rw [hres] at h
            simpa [Except.toOption] using h
          have hmap : (providerEntries n ts).map MCPToolEntry.name =
              (ts.map ProviderTool.name).map (fun s => n ++ "__" ++ s) := by
            simp [providerEntries, mkEntry, List.map_map]
          rw [hmap]
          refine hts.map ?_
          intro s1 s2 hs
          exact (qualified_name_inj n n s1 s2 hsepn hsepn hs).2
        · intro x hx1 hx2
          obtain ⟨e1, he1, hx1e⟩ := List.mem_map.mp hx1
          obtain ⟨t1x, ht1x, hmk1⟩ := List.mem_map.mp he1
          obtain ⟨e2, he2, hx2e⟩ := List.mem_map.mp hx2
          obtain ⟨p, hp, hok2, ts2, hts2, t2x, ht2x, hmk2⟩ :=
            mem_initializeMCP_tools rest e2 he2
          have hx1n : x = n ++ "__" ++ t1x.name := by
            rw [← hx1e, ← hmk1]
            rfl
          have hx2n : x = p.1 ++ "__" ++ t2x.name := by
            rw [← hx2e, hmk2]
            rfl
          have hinj := qualified_name_inj n p.1 t1x.name t2x.name
            hsepn (hsep p (List.mem_cons_of_mem _ hp)) (by rw [← hx1n, ← hx2n])
          apply hnames.1
          have hmem2 : p.1 ∈ rest.map Prod.fst := List.mem_map_of_mem Prod.fst hp
          rw [hinj.1]
          exact hmem2
    · rw [if_neg hconn]
      exact ihr

/-- Witness for C3 (amended) on the three-provider configuration. -/
theorem qualified_names_nodup_of_sep_free_witness :
    (demoConfigs.map Prod.fst).Nodup
    ∧ (∀ p ∈ demoConfigs, sepFree p.1.data = true)
    ∧ ((initializeMCP demoConfigs).2.map MCPToolEntry.name).Nodup := by
  refine ⟨by decide, by decide, ?_⟩
  exact qualified_names_nodup_of_sep_free demoConfigs (by decide) (by decide) (by decide)

/-- Counterexample for C3 as stated: two providers with distinct names and
distinct local tool names whose qualified names nevertheless coincide,
because the `"__"` separator also occurs inside the names
(`"a" ++ "__" ++ "b__c"` and `"a__b" ++ "__" ++ "c"`). -/
theorem qualified_name_collision :
    (collisionConfigs.map Prod.fst).Nodup
    ∧ ((initializeMCP collisionConfigs).2.map MCPToolEntry.name) = ["a__b__c", "a__b__c"]
    ∧ ¬ ((initializeMCP collisionConfigs).2.map MCPToolEntry.name).Nodup := by
  exact ⟨by decide, by decide, by decide⟩

/-- With one non-`tool_use` response and a non-researcher agent, the server
variant makes exactly one model call, with the seed messages and no tools,
and returns that response's joined text. -/
theorem callClaudeAgent_single (mt : List MCPToolEntry) (cl : String → Option MCPClient)
    (agentType msg : String) (ctx : Option String) (r : Response)
    (hnr : agentType ≠ "researcher") (hs : r.stop_reason ≠ "tool_use") :
    callClaudeAgent mt cl agentType msg ctx [r] =
      (some (extractText r.content),
       [⟨serverAgentPrompts agentType, contextMessages ctx ++ [⟨"user", MsgContent.str msg⟩],
         none⟩]) := by
  simp [callClaudeAgent.eq_def, agentLoop, if_neg hnr, if_neg hs]

/-- C10 (amended): for the analyzer and writer agents, given the same user
message, prior context, and the same model response with a stop reason
other than `tool_use`, the server variant and both serverless variants
build the same single model call — identical system prompt, identical
message sequence (optional context exchange then the user message), no
tools parameter — and return the same newline-joined text result. -/
theorem variants_agree_non_tool_use (mt : List MCPToolEntry) (cl : String → Option MCPClient)
    (brave : String → Option (List SearchResult)) (agentType msg : String)
    (ctx : Option String) (r : Response)
    (hA : agentType = "analyzer" ∨ agentType = "writer")
    (hs : r.stop_reason ≠ "tool_use") :
    (callClaudeAgent mt cl agentType msg ctx [r]).1 =
      some (apiCallClaudeAgent agentType msg ctx r).1
    ∧ (apiCallClaudeAgent agentType msg ctx r).1 =
        (part000CallClaudeAgent brave agentType msg ctx r).1
    ∧ (callClaudeAgent mt cl agentType msg ctx [r]).2 =
        [⟨serverAgentPrompts agentType, contextMessages ctx ++ [⟨"user", MsgContent.str msg⟩],
          none⟩]
    ∧ (apiCallClaudeAgent agentType msg ctx r).2 =
        ⟨apiAgentPrompts agentType, contextMessages ctx ++ [⟨"user", MsgContent.str msg⟩], none⟩
    ∧ (part000CallClaudeAgent brave agentType msg ctx r).2 =
        ⟨part000AgentPrompts agentType, contextMessages ctx ++ [⟨"user", MsgContent.str msg⟩],
          none⟩
    ∧ serverAgentPrompts agentType = apiAgentPrompts agentType
    ∧ apiAgentPrompts agentType = part000AgentPrompts agentType := by
  have hnr : agentType ≠ "researcher" := by
    rcases hA with h | h <;> rw [h] <;> decide
  have hsingle := callClaudeAgent_single mt cl agentType msg ctx r hnr hs
  refine ⟨?_, rfl, ?_, rfl, ?_, ?_, ?_⟩
  · rw [hsingle]
    rfl
  · rw [hsingle]
  · rcases hA with h | h <;> rw [h] <;> rfl
  · rcases hA with h | h <;> rw [h] <;> rfl
  · rcases hA with h | h <;> rw [h] <;> rfl

/-- Witness for C10 (amended) at the analyzer with a concrete context and
terminal response. -/
theorem variants_agree_non_tool_use_witness :
    (callClaudeAgent demoRegistry demoClients "analyzer" "m" (some "ctx") [plainResponse]).1 =
      some (apiCallClaudeAgent "analyzer" "m" (some "ctx") plainResponse).1
    ∧ (apiCallClaudeAgent "analyzer" "m" (some "ctx") plainResponse).1 =
        (part000CallClaudeAgent (fun _ => none) "analyzer" "m" (some "ctx") plainResponse).1
    ∧ (callClaudeAgent demoRegistry demoClients "analyzer" "m" (some "ctx")
        [plainResponse]).2 =
        [⟨serverAgentPrompts "analyzer",
          contextMessages (some "ctx") ++ [⟨"user", MsgContent.str "m"⟩], none⟩]
    ∧ serverAgentPrompts "analyzer" = apiAgentPrompts "analyzer"
    ∧ apiAgentPrompts "analyzer" = part000AgentPrompts "analyzer" := by
  have h := variants_agree_non_tool_use demoRegistry demoClients (fun _ => none)
    "analyzer" "m" (some "ctx") plainResponse (Or.inl rfl) (by decide)
  exact ⟨h.1, h.2.1, h.2.2.1, h.2.2.2.2.2.1, h.2.2.2.2.2.2⟩

set_option maxRecDepth 8000 in
/-- Counterexample for C10 as stated: on a model response whose stop reason
is `tool_use`, the serverless variants return its joined text while the
server variant does not — it appends further turns and makes a second
model call, so the behaviours differ on that shared response. -/
theorem variants_diverge_on_tool_use_stop :
    toolStopResponse.stop_reason = "tool_use"
    ∧ (apiCallClaudeAgent "analyzer" "m" none toolStopResponse).1 = "hi"
    ∧ (part000CallClaudeAgent (fun _ => none) "analyzer" "m" none toolStopResponse).1 = "hi"
    ∧ (callClaudeAgent [] noClients "analyzer" "m" none [toolStopResponse]).1 ≠
        some ((apiCallClaudeAgent "analyzer" "m" none toolStopResponse).1)
    ∧ (callClaudeAgent [] noClients "analyzer" "m" none [toolStopResponse]).2.length = 2 := by
  exact ⟨rfl, rfl, rfl, by decide, by decide⟩

end Geopol
